import Mathlib

/-!
Shallow embedding of the indicator computation engine of
`u_stock_learning/indicators/compute_indicators.py`.

Modelling conventions.

* Python numbers (ints and floats) are modelled as exact rationals `ℚ`.
  None of the properties verified below depends on floating-point
  rounding: they concern guard structure, definedness of optional
  fields, lengths of sequences, window selection and cap inequalities,
  all of which are exact.
* The `close` entry of a price row can be a number, JSON `null`
  (Python `None`), or the key can be absent entirely; `row["close"]`
  raises `KeyError` in the last case.  The three cases are
  `PyClose.num`, `PyClose.null` and `PyClose.missing`.
* `dict.get(k)` returns `None` both when the key is absent and when a
  null is stored, so each optional snapshot field is one `Option ℚ`.
* Python truthiness of an optional number (the `if value:` pattern of
  the source) is `truthy`: `None`, `0` and `0.0` are falsy, every
  other number is truthy.
* Exceptions are modelled with `Except PyErr`; `KeyError` comes from
  subscripting a row without the key, `TypeError` from arithmetic on
  `None`.
* Dates are sortable keys; they are modelled as naturals (the source
  sorts rows by the `date` string, and only the induced order
  matters).  Every row is assumed to carry a date, as the claims never
  involve a missing date.
* `statistics.stdev w` is the square root of the Bessel-corrected
  sample variance of `w`.  The square root of a rational is irrational
  in general, so the model tracks the volatility by its exact square
  `vol_10d_sq = sampleVariance window`; correspondingly the volatility
  slot fed to the score is the squared volatility.  Every theorem
  below that touches the score either keeps the volatility slot
  undefined or uses only facts (definedness, caps, signs) that are
  insensitive to this monotone reparametrisation.
-/

/-- Python exceptions that the engine can actually raise. -/
inductive PyErr where
  | keyError
  | typeError
deriving DecidableEq

/-- The `close` entry of one price row: a number, an explicit null, or
an absent key. -/
inductive PyClose where
  | missing
  | null
  | num (q : ℚ)
deriving DecidableEq

/-- One OHLCV row as far as the engine reads it: the sort key `date`
and the `close` entry. -/
structure Bar where
  date : ℕ
  close : PyClose
deriving DecidableEq

/-- `row["close"]`: raises `KeyError` when the key is absent, otherwise
yields `None` or the stored number. -/
def extractClose : PyClose → Except PyErr (Option ℚ)
  | .missing => .error .keyError
  | .null => .ok none
  | .num q => .ok (some q)

/-- The value seen through `dict.get`-style access once the key is
known to be present: null becomes `none`, a number becomes `some`. -/
def viewClose : PyClose → Option ℚ
  | .missing => none
  | .null => none
  | .num q => some q

/-- Python truthiness of an optional number: `None`, `0` and `0.0` are
falsy. -/
def truthy : Option ℚ → Bool
  | none => false
  | some q => q != 0

/-- The loop of `compute_daily_returns` over the extracted closes:
for each adjacent pair, skip it when the denominator is `None` or `0`,
raise `TypeError` when a usable denominator meets a `None` numerator,
and otherwise append `curr / prev - 1`. -/
def pairReturns : List (Option ℚ) → Except PyErr (List ℚ)
  | [] => .ok []
  | [_] => .ok []
  | prevc :: curr :: rest =>
    if truthy prevc then
      match curr with
      | none => .error .typeError
      | some c =>
        match pairReturns (curr :: rest) with
        | .error e => .error e
        | .ok rs => .ok ((c / prevc.getD 0 - 1) :: rs)
    else
      pairReturns (curr :: rest)

/-- The list comprehension `[row["close"] for row in prices]`: it
raises `KeyError` on the first row lacking the key, before any pair is
examined. -/
def extractCloses : List Bar → Except PyErr (List (Option ℚ))
  | [] => .ok []
  | b :: t =>
    match extractClose b.close with
    | .error e => .error e
    | .ok c =>
      match extractCloses t with
      | .error e => .error e
      | .ok cs => .ok (c :: cs)

/-- `compute_daily_returns` of the source: extract every close, then
run the pairwise loop. -/
def compute_daily_returns (prices : List Bar) : Except PyErr (List ℚ) :=
  match extractCloses prices with
  | .error e => .error e
  | .ok closes => pairReturns closes

/-- The `trading_snapshot` sub-record, each field optional. -/
structure TradingSnapshot where
  regularMarketOpen : Option ℚ
  regularMarketDayHigh : Option ℚ
  regularMarketDayLow : Option ℚ
  regularMarketVolume : Option ℚ
  averageDailyVolume10Day : Option ℚ
  regularMarketPreviousClose : Option ℚ
deriving DecidableEq

/-- A fundamentals record as far as the engine reads it. -/
structure Fundamentals where
  trading_snapshot : Option TradingSnapshot
deriving DecidableEq

/-- The empty snapshot used when `trading_snapshot` is absent. -/
def emptySnapshot : TradingSnapshot := ⟨none, none, none, none, none, none⟩

/-- The empty record used when a symbol has no fundamentals entry. -/
def emptyFundamentals : Fundamentals := ⟨none⟩

/-- Lines 76 to 78 of the source: `close_return_1d` is computed only
when `prev_close` is truthy; a `None` numerator then raises
`TypeError`. -/
def close_return_1d_of (last_close prev_close : Option ℚ) :
    Except PyErr (Option ℚ) :=
  if truthy prev_close then
    match last_close with
    | none => .error .typeError
    | some c => .ok (some (c / prev_close.getD 0 - 1))
  else
    .ok none

/-- Lines 90 to 93 of the source: `base_prev_close = prev_close_ref or
prev_close` (Python `or` keeps the first operand only when truthy),
then the gap is computed when both the base and `today_open` are
truthy. -/
def gap_pct_of (prev_close_ref prev_close today_open : Option ℚ) :
    Option ℚ :=
  let base_prev_close := if truthy prev_close_ref then prev_close_ref else prev_close
  if truthy base_prev_close && truthy today_open then
    some (today_open.getD 0 / base_prev_close.getD 0 - 1)
  else
    none

/-- Lines 96 to 99 of the source: the day range requires all three of
open, high and low to be truthy, with a redundant inner check that the
open is nonzero. -/
def day_range_pct_of (today_open today_high today_low : Option ℚ) :
    Option ℚ :=
  if truthy today_open && truthy today_high && truthy today_low then
    if today_open.getD 0 ≠ 0 then
      some ((today_high.getD 0 - today_low.getD 0) / today_open.getD 0)
    else
      none
  else
    none

/-- Lines 102 to 105 of the source: the volume ratio requires both
volume fields to be truthy, with a redundant inner check that the
average is nonzero. -/
def volume_ratio_of (today_volume avg_vol_10d : Option ℚ) : Option ℚ :=
  if truthy today_volume && truthy avg_vol_10d then
    if avg_vol_10d.getD 0 ≠ 0 then
      some (today_volume.getD 0 / avg_vol_10d.getD 0)
    else
      none
  else
    none

/-- The Python slice `l[-n:]`: the last up-to-`n` elements. -/
def lastN (n : ℕ) (l : List ℚ) : List ℚ := l.drop (l.length - n)

/-- Bessel-corrected sample variance, the square of
`statistics.stdev`. -/
def sampleVariance (w : List ℚ) : ℚ :=
  let m := w.sum / (w.length : ℚ)
  (w.map (fun x => (x - m) ^ 2)).sum / ((w.length : ℚ) - 1)

/-- Lines 109 to 114 of the source, at the squared-volatility level:
when at least two returns exist, take the last up-to-10 of them and,
when that window again has at least two elements, produce the sample
statistic of the window. -/
def vol_10d_sq_of (returns : List ℚ) : Option ℚ :=
  if 2 ≤ returns.length then
    let window := lastN 10 returns
    if 2 ≤ window.length then some (sampleVariance window) else none
  else
    none

/-- Gap contribution of the score: `min(abs(gap_pct) * 100, 50)`, zero
when undefined. -/
def gap_contrib : Option ℚ → ℚ
  | none => 0
  | some g => min (|g| * 100) 50

/-- Range contribution of the score: `min(day_range_pct * 100, 30)`,
zero when undefined. -/
def range_contrib : Option ℚ → ℚ
  | none => 0
  | some r => min (r * 100) 30

/-- Volume contribution of the score:
`min(max(volume_ratio - 1.0, 0.0) * 10, 40)`, zero when undefined. -/
def volume_contrib : Option ℚ → ℚ
  | none => 0
  | some v => min (max (v - 1) 0 * 10) 40

/-- Volatility contribution of the score: `min(vol_10d * 100, 30)`,
zero when undefined. -/
def vol_contrib : Option ℚ → ℚ
  | none => 0
  | some v => min (v * 100) 30

/-- Lines 119 to 132 of the source: the in-play score is the sum of
the four capped contributions. -/
def in_play_score (gap_pct day_range_pct volume_ratio vol_10d : Option ℚ) : ℚ :=
  gap_contrib gap_pct + range_contrib day_range_pct
    + volume_contrib volume_ratio + vol_contrib vol_10d

/-- The derived output for one symbol.  `vol_10d_sq` is the square of
the `vol_10d` of the source, and the volatility slot of the score is
fed with it; see the module comment. -/
structure Signal where
  symbol : String
  close_return_1d : Option ℚ
  gap_pct : Option ℚ
  day_range_pct : Option ℚ
  volume_ratio : Option ℚ
  vol_10d_sq : Option ℚ
  in_play_score : ℚ
deriving DecidableEq

/-- Order of bars by date, the sort key of line 67 of the source. -/
def dateLE (a b : Bar) : Prop := a.date ≤ b.date

instance : DecidableRel dateLE :=
  fun a b => inferInstanceAs (Decidable (a.date ≤ b.date))

instance : IsTotal Bar dateLE := ⟨fun a b => Nat.le_total a.date b.date⟩

instance : IsTrans Bar dateLE := ⟨fun _ _ _ h₁ h₂ => Nat.le_trans h₁ h₂⟩

/-- Strict order of bars by date, used to prove sort results unique
when no date repeats. -/
def dateLT (a b : Bar) : Prop := a.date < b.date

instance : IsAntisymm Bar dateLT :=
  ⟨fun _ _ h₁ h₂ => absurd h₂ (Nat.lt_asymm h₁)⟩

/-- `sorted(daily_prices, key=lambda row: row["date"])` of line 67. -/
def sortBarsByDate (l : List Bar) : List Bar := l.insertionSort dateLE

/-- Fallback bar for the unreachable branch of `lastTwo`; it is used
only on lists that are known to have at least two elements. -/
def defaultBar : Bar := ⟨0, .null⟩

/-- `(sorted[-2], sorted[-1])`: the previous and the last bar of a
sorted series with at least two elements. -/
def lastTwo (l : List Bar) : Bar × Bar :=
  match l.reverse with
  | la :: pr :: _ => (pr, la)
  | _ => (defaultBar, defaultBar)

/-- The body of `compute_indicators_for_symbol` after the length guard
and the sort, in source order: extract the two closes (lines 72 to
73), the 1-day return (76 to 78), the snapshot fields (81 to 87), the
three mixed signals (90 to 105), the returns and the volatility (108
to 114), and the score (119 to 132). -/
def indicatorsFromSorted (symbol : String) (dps : List Bar)
    (snap : TradingSnapshot) : Except PyErr (Option Signal) := do
  let pl := lastTwo dps
  let last_close ← extractClose pl.2.close
  let prev_close ← extractClose pl.1.close
  let close_return_1d ← close_return_1d_of last_close prev_close
  let today_open := snap.regularMarketOpen
  let today_high := snap.regularMarketDayHigh
  let today_low := snap.regularMarketDayLow
  let today_volume := snap.regularMarketVolume
  let avg_vol_10d := snap.averageDailyVolume10Day
  let prev_close_ref := snap.regularMarketPreviousClose
  let gap_pct := gap_pct_of prev_close_ref prev_close today_open
  let day_range_pct := day_range_pct_of today_open today_high today_low
  let volume_ratio := volume_ratio_of today_volume avg_vol_10d
  let returns ← compute_daily_returns dps
  let vol_10d_sq := vol_10d_sq_of returns
  let score := in_play_score gap_pct day_range_pct volume_ratio vol_10d_sq
  .ok (some ⟨symbol, close_return_1d, gap_pct, day_range_pct,
             volume_ratio, vol_10d_sq, score⟩)

/-- `compute_indicators_for_symbol` of the source: the empty dict
(modelled `none`) for fewer than two bars, otherwise the signal built
from the date-sorted copy of the series and the snapshot. -/
def compute_indicators_for_symbol (symbol : String)
    (daily_prices : List Bar) (fundamentals : Fundamentals) :
    Except PyErr (Option Signal) :=
  if daily_prices.length < 2 then .ok none
  else
    indicatorsFromSorted symbol (sortBarsByDate daily_prices)
      (fundamentals.trading_snapshot.getD emptySnapshot)

/-- The loop of `main` (lines 159 to 163): per symbol of the price
data, look the fundamentals up with an empty-record default, compute
the indicators, and keep the entry only when the result is nonempty. -/
def signalsFor :
    List (String × List Bar) → List (String × Fundamentals) →
    Except PyErr (List (String × Signal))
  | [], _ => .ok []
  | (sym, rows) :: rest, funds =>
    match compute_indicators_for_symbol sym rows
        ((funds.lookup sym).getD emptyFundamentals) with
    | .error e => .error e
    | .ok ind =>
      match signalsFor rest funds with
      | .error e => .error e
      | .ok tailSig =>
        match ind with
        | none => .ok tailSig
        | some sig => .ok ((sym, sig) :: tailSig)

/-- The two caller-owned objects passed to
`compute_indicators_for_symbol`, threaded explicitly to state the
frame property. -/
structure CallerState where
  daily_prices : List Bar
  fundamentals : Fundamentals
deriving DecidableEq

/-- `len(daily_prices)`: a pure read of the caller state. -/
def readLen (s : CallerState) : ℕ × CallerState :=
  (s.daily_prices.length, s)

/-- `sorted(daily_prices, ...)`: CPython `sorted` allocates a fresh
list and leaves its argument untouched, so the caller state is
returned unchanged. -/
def sortedCopy (s : CallerState) : List Bar × CallerState :=
  (sortBarsByDate s.daily_prices, s)

/-- `fundamentals.get("trading_snapshot", {})`: `dict.get` is a pure
read. -/
def readSnapshot (s : CallerState) : TradingSnapshot × CallerState :=
  (s.fundamentals.trading_snapshot.getD emptySnapshot, s)

/-- `compute_indicators_for_symbol` with the caller-visible objects
threaded statement by statement: every access the source makes to
`daily_prices` or `fundamentals` is one of the three reads above. -/
def compute_indicators_st (symbol : String) (s0 : CallerState) :
    Except PyErr (Option Signal) × CallerState :=
  let p1 := readLen s0
  if p1.1 < 2 then (.ok none, p1.2)
  else
    let p2 := sortedCopy p1.2
    let p3 := readSnapshot p2.2
    (indicatorsFromSorted symbol p2.1 p3.1, p3.2)

/-! ### Helper lemmas -/

theorem truthy_iff (x : Option ℚ) :
    truthy x = true ↔ ∃ a, x = some a ∧ a ≠ 0 := by
  cases x <;> simp [truthy]

theorem truthy_eq_false_iff (x : Option ℚ) :
    truthy x = false ↔ x = none ∨ x = some 0 := by
  cases x with
  | none => simp [truthy]
  | some a =>
    simp only [truthy, bne_eq_false_iff_eq]
    constructor
    · intro h
      exact Or.inr (by rw [h])
    · rintro (h | h)
      · cases h
      · cases h
        rfl

/-! ### C1: day range definedness -/

/-- C1 (amended): the day range is `(high - low) / open` exactly when
all three of open, high and low are present AND nonzero; a
present-but-zero value among the three leaves the field undefined,
because the guard of line 97 tests Python truthiness, which conflates
zero with missing. -/
theorem day_range_defined_iff_truthy (o h l : Option ℚ) :
    ((day_range_pct_of o h l).isSome = true ↔
      (∃ a, o = some a ∧ a ≠ 0) ∧ (∃ b, h = some b ∧ b ≠ 0) ∧
        (∃ c, l = some c ∧ c ≠ 0)) ∧
    (∀ a b c, o = some a → h = some b → l = some c →
      a ≠ 0 → b ≠ 0 → c ≠ 0 →
      day_range_pct_of o h l = some ((b - c) / a)) := by
  constructor
  · rw [← truthy_iff o, ← truthy_iff h, ← truthy_iff l]
    unfold day_range_pct_of
    rcases ho : truthy o with _ | _ <;>
      rcases hh : truthy h with _ | _ <;>
        rcases hl : truthy l with _ | _ <;> simp
    rcases (truthy_iff o).mp ho with ⟨a, rfl, ha⟩
    simp [Option.getD, ha]
  · rintro a b c rfl rfl rfl ha hb hc
    have ho : truthy (some a) = true := by simp [truthy, ha]
    have hh : truthy (some b) = true := by simp [truthy, hb]
    have hl : truthy (some c) = true := by simp [truthy, hc]
    simp [day_range_pct_of, ho, hh, hl, ha]

/-- C1 counterexample: with open, high, low all present, open nonzero,
but low equal to zero, the code leaves the day range undefined while
the claim requires it to be defined. -/
theorem day_range_zero_low_undefined :
    (some (1 : ℚ)).isSome = true ∧ (some (5 : ℚ)).isSome = true ∧
      (some (0 : ℚ)).isSome = true ∧ (1 : ℚ) ≠ 0 ∧
      day_range_pct_of (some 1) (some 5) (some 0) = none := by
  refine ⟨rfl, rfl, rfl, by decide, rfl⟩

/-- C1 witness: a fully truthy snapshot gets the documented value. -/
theorem day_range_witness :
    day_range_pct_of (some 2) (some 5) (some 1) = some ((5 - 1) / 2) :=
  (day_range_defined_iff_truthy (some 2) (some 5) (some 1)).2 2 5 1
    rfl rfl rfl (by decide) (by decide) (by decide)

/-! ### C2: gap definedness and fallback -/

/-- C2 (amended): the base previous close is the snapshot field only
when that field is present and nonzero (Python `or` keeps a truthy
first operand); a present-but-zero snapshot previous close falls back
to the previous bar close.  The gap is defined exactly when the
resulting base and the open are both present and nonzero, so a
present-but-zero open also leaves the gap undefined. -/
theorem gap_defined_iff_truthy (pref pc o : Option ℚ) :
    ((gap_pct_of pref pc o).isSome = true ↔
      ((∃ r, pref = some r ∧ r ≠ 0) ∨
        ((pref = none ∨ pref = some 0) ∧ ∃ p, pc = some p ∧ p ≠ 0)) ∧
      (∃ a, o = some a ∧ a ≠ 0)) ∧
    (∀ r a, pref = some r → r ≠ 0 → o = some a → a ≠ 0 →
      gap_pct_of pref pc o = some (a / r - 1)) ∧
    (∀ p a, (pref = none ∨ pref = some 0) → pc = some p → p ≠ 0 →
      o = some a → a ≠ 0 → gap_pct_of pref pc o = some (a / p - 1)) := by
  refine ⟨?_, ?_, ?_⟩
  · unfold gap_pct_of
    rcases hr : truthy pref with _ | _
    · rw [← truthy_iff pc, ← truthy_iff o]
      have hne := (truthy_eq_false_iff pref).mp hr
      have hnr : ¬ ∃ r, pref = some r ∧ r ≠ 0 := by
        rw [← truthy_iff]
        simp [hr]
      rcases hc : truthy pc with _ | _ <;>
        rcases ho : truthy o with _ | _ <;>
          simp [hr, hc, ho, hne, hnr]
    · rw [← truthy_iff o]
      have hyr : ∃ r, pref = some r ∧ r ≠ 0 := (truthy_iff pref).mp hr
      rcases ho : truthy o with _ | _ <;> simp [hr, ho, hyr]
  · rintro r a rfl hrne rfl hane
    have h₁ : truthy (some r) = true := by simp [truthy, hrne]
    have h₂ : truthy (some a) = true := by simp [truthy, hane]
    simp [gap_pct_of, h₁, h₂]
  · rintro p a hpref rfl hpne rfl hane
    have h₀ : truthy pref = false := (truthy_eq_false_iff pref).mpr hpref
    have h₁ : truthy (some p) = true := by simp [truthy, hpne]
    have h₂ : truthy (some a) = true := by simp [truthy, hane]
    simp [gap_pct_of, h₀, h₁, h₂]

/-- C2 counterexample: a present-but-zero snapshot previous close is
not used as the base (the code falls back to the bar close 100 and
yields 110/100 - 1), and a present-but-zero open leaves the gap
undefined even though a base exists, both contrary to the claim. -/
theorem gap_zero_ref_falls_back :
    gap_pct_of (some 0) (some 100) (some 110) = some (1 / 10) ∧
      (some (0 : ℚ)).isSome = true ∧
      gap_pct_of (some 100) (some 90) (some 0) = none := by
  refine ⟨?_, rfl, rfl⟩
  norm_num [gap_pct_of, truthy]

/-- C2 witness: the snapshot field is used when truthy, and the bar
close is used when the snapshot field is absent. -/
theorem gap_witness :
    gap_pct_of (some 2) (some 7) (some 3) = some (3 / 2 - 1) ∧
      gap_pct_of none (some 7) (some 3) = some (3 / 7 - 1) :=
  ⟨(gap_defined_iff_truthy (some 2) (some 7) (some 3)).2.1 2 3
      rfl (by decide) rfl (by decide),
    (gap_defined_iff_truthy none (some 7) (some 3)).2.2 7 3
      (Or.inl rfl) rfl (by decide) rfl (by decide)⟩

/-! ### C3: volume ratio definedness -/

/-- C3 (amended): the volume ratio is defined exactly when both the
volume and the 10-day average are present AND nonzero; in particular a
present volume equal to 0 leaves the field undefined, because the
guard of line 103 tests truthiness of the numerator as well. -/
theorem volume_ratio_defined_iff_truthy (tv av : Option ℚ) :
    ((volume_ratio_of tv av).isSome = true ↔
      (∃ x, tv = some x ∧ x ≠ 0) ∧ ∃ y, av = some y ∧ y ≠ 0) ∧
    (∀ x y, tv = some x → x ≠ 0 → av = some y → y ≠ 0 →
      volume_ratio_of tv av = some (x / y)) := by
  constructor
  · rw [← truthy_iff tv, ← truthy_iff av]
    unfold volume_ratio_of
    rcases ht : truthy tv with _ | _ <;>
      rcases ha : truthy av with _ | _ <;> simp
    rcases (truthy_iff av).mp ha with ⟨y, rfl, hy⟩
    simp [Option.getD, hy]
  · rintro x y rfl hx rfl hy
    have h₁ : truthy (some x) = true := by simp [truthy, hx]
    have h₂ : truthy (some y) = true := by simp [truthy, hy]
    simp [volume_ratio_of, h₁, h₂, hy]

/-- C3 counterexample: a present volume equal to 0 with a nonzero
average yields an undefined ratio, not 0 as the claim states. -/
theorem volume_ratio_zero_volume_undefined :
    (some (0 : ℚ)).isSome = true ∧ (100 : ℚ) ≠ 0 ∧
      volume_ratio_of (some 0) (some 100) = none := by
  refine ⟨rfl, by decide, rfl⟩

/-- C3 witness: a truthy volume and average give the quotient. -/
theorem volume_ratio_witness :
    volume_ratio_of (some 6) (some 4) = some (6 / 4) :=
  (volume_ratio_defined_iff_truthy (some 6) (some 4)).2 6 4
    rfl (by decide) rfl (by decide)

/-! ### C4, C5: the Return Calculator -/

/-- An adjacent pair on which the loop raises: a usable (truthy)
denominator followed by a `None` numerator. -/
def badPair (p : Option ℚ × Option ℚ) : Bool := truthy p.1 && p.2.isNone

/-- Whether some adjacent pair of the close sequence raises. -/
def hasBadPair (closes : List (Option ℚ)) : Bool :=
  (closes.zip closes.tail).any badPair

/-- The number of adjacent pairs whose denominator close is null or
zero; every element but the last serves as a denominator once. -/
def badDenCount (closes : List (Option ℚ)) : ℕ :=
  closes.dropLast.countP (fun c => ! truthy c)

/-- The close sequence of a bar list, as seen once every key is known
to be present. -/
def closesOf (prices : List Bar) : List (Option ℚ) :=
  prices.map (fun r => viewClose r.close)

theorem hasBadPair_cons₂ (p c : Option ℚ) (rest : List (Option ℚ)) :
    hasBadPair (p :: c :: rest) = (badPair (p, c) || hasBadPair (c :: rest)) :=
  rfl

theorem badDenCount_cons₂_true (p c : Option ℚ) (rest : List (Option ℚ))
    (hp : truthy p = true) :
    badDenCount (p :: c :: rest) = badDenCount (c :: rest) := by
  have hdl : (p :: c :: rest).dropLast = p :: (c :: rest).dropLast := rfl
  unfold badDenCount
  rw [hdl, List.countP_cons]
  simp [hp]

theorem badDenCount_cons₂_false (p c : Option ℚ) (rest : List (Option ℚ))
    (hp : truthy p = false) :
    badDenCount (p :: c :: rest) = badDenCount (c :: rest) + 1 := by
  have hdl : (p :: c :: rest).dropLast = p :: (c :: rest).dropLast := rfl
  unfold badDenCount
  rw [hdl, List.countP_cons]
  simp [hp]

theorem pairReturns_error_of_badPair (closes : List (Option ℚ))
    (h : hasBadPair closes = true) :
    pairReturns closes = .error .typeError := by
  induction closes with
  | nil => simp [hasBadPair] at h
  | cons p tail ih =>
    cases tail with
    | nil => simp [hasBadPair] at h
    | cons c rest =>
      rw [hasBadPair_cons₂, Bool.or_eq_true] at h
      rcases h with hbad | htail
      · have hpc : truthy p = true ∧ c.isNone = true := by
          simpa [badPair] using hbad
        have hc : c = none := Option.isNone_iff_eq_none.mp hpc.2
        subst hc
        simp [pairReturns, hpc.1]
      · have hrec := ih htail
        cases hp : truthy p
        · simp [pairReturns, hp, hrec]
        · cases c with
          | none => simp [pairReturns, hp]
          | some cv => simp [pairReturns, hp, hrec]

theorem pairReturns_ok_of_noBadPair (closes : List (Option ℚ))
    (h : hasBadPair closes = false) :
    ∃ rs, pairReturns closes = .ok rs ∧
      rs.length + badDenCount closes = closes.length - 1 := by
  induction closes with
  | nil => exact ⟨[], rfl, rfl⟩
  | cons p tail ih =>
    cases tail with
    | nil => exact ⟨[], rfl, rfl⟩
    | cons c rest =>
      rw [hasBadPair_cons₂, Bool.or_eq_false_iff] at h
      obtain ⟨rs, hok, hlen⟩ := ih h.2
      cases hp : truthy p
      · refine ⟨rs, ?_, ?_⟩
        · simp [pairReturns, hp, hok]
        · rw [badDenCount_cons₂_false p c rest hp]
          simp only [List.length_cons] at hlen ⊢
          omega
      · have hc : c.isNone = false := by
          have hb := h.1
          rw [badPair] at hb
          simpa [hp] using hb
        obtain ⟨cv, rfl⟩ : ∃ cv, c = some cv := by
          cases c
          · simp at hc
          · exact ⟨_, rfl⟩
        refine ⟨(cv / p.getD 0 - 1) :: rs, ?_, ?_⟩
        · simp [pairReturns, hp, hok]
        · rw [badDenCount_cons₂_true p (some cv) rest hp]
          simp only [List.length_cons] at hlen ⊢
          omega

theorem extractCloses_ok (prices : List Bar)
    (h : ∀ b ∈ prices, b.close ≠ .missing) :
    extractCloses prices = .ok (closesOf prices) := by
  induction prices with
  | nil => rfl
  | cons b t ih =>
    have hb := h b (List.mem_cons_self b t)
    have ht := fun x hx => h x (List.mem_cons_of_mem b hx)
    cases hcase : b.close with
    | missing => exact absurd hcase hb
    | null => simp [extractCloses, extractClose, hcase, ih ht, closesOf, viewClose]
    | num q => simp [extractCloses, extractClose, hcase, ih ht, closesOf, viewClose]

theorem extractCloses_error (prices : List Bar) (b : Bar)
    (hmem : b ∈ prices) (hmiss : b.close = .missing) :
    extractCloses prices = .error .keyError := by
  induction prices with
  | nil => cases hmem
  | cons a t ih =>
    rcases List.mem_cons.mp hmem with rfl | hmem₂
    · simp [extractCloses, extractClose, hmiss]
    · cases hcase : a.close with
      | missing => simp [extractCloses, extractClose, hcase]
      | null => simp [extractCloses, extractClose, hcase, ih hmem₂]
      | num q => simp [extractCloses, extractClose, hcase, ih hmem₂]

/-- C4 (amended): the Return Calculator returns normally exactly when
every bar has a close key and no null close immediately follows a
usable (non-null, nonzero) close.  Outside those conditions it does
raise: `KeyError` from the close extraction, or `TypeError` from a
`None` numerator over a usable denominator.  Pairs whose denominator
is null or zero are skipped, not errors. -/
theorem returns_ok_iff (prices : List Bar) :
    (∃ rs, compute_daily_returns prices = .ok rs) ↔
      ((∀ b ∈ prices, b.close ≠ .missing) ∧
        hasBadPair (closesOf prices) = false) := by
  constructor
  · rintro ⟨rs, hok⟩
    by_cases hkeys : ∀ b ∈ prices, b.close ≠ .missing
    · refine ⟨hkeys, ?_⟩
      by_contra hbad
      rw [Bool.not_eq_false] at hbad
      have herr := pairReturns_error_of_badPair _ hbad
      rw [compute_daily_returns, extractCloses_ok prices hkeys] at hok
      have hok₂ : pairReturns (closesOf prices) = .ok rs := hok
      rw [herr] at hok₂
      simp at hok₂
    · push_neg at hkeys
      obtain ⟨b, hmem, hmiss⟩ := hkeys
      rw [compute_daily_returns, extractCloses_error prices b hmem hmiss] at hok
      have hok₂ : (Except.error PyErr.keyError : Except PyErr (List ℚ)) = .ok rs :=
        hok
      simp at hok₂
  · rintro ⟨hkeys, hbad⟩
    obtain ⟨rs, hok, _⟩ := pairReturns_ok_of_noBadPair _ hbad
    refine ⟨rs, ?_⟩
    rw [compute_daily_returns, extractCloses_ok prices hkeys]
    exact hok

/-- C4 counterexample: a null close right after a usable close raises
`TypeError` (`None` used as a numerator), so the Return Calculator is
not raise-free and a bar lacking a usable close is not merely skipped. -/
theorem returns_raise_on_null_numerator :
    compute_daily_returns [⟨1, .num 100⟩, ⟨2, .null⟩] = .error .typeError :=
  rfl

/-- C4 witness: a null DENOMINATOR close is fine, the pair is skipped. -/
theorem returns_ok_iff_witness :
    ∃ rs, compute_daily_returns [⟨1, .null⟩, ⟨2, .num 5⟩] = .ok rs :=
  (returns_ok_iff [⟨1, .null⟩, ⟨2, .num 5⟩]).mpr ⟨by decide, by decide⟩

/-- C5 (amended): when every bar has a close key and no null close
immediately follows a usable close, the output length is `n - 1` minus
the number of adjacent pairs whose denominator close is null or zero,
and an input of length 0 or 1 gives an empty result with no error.
(With a missing close key the function raises even for length 1; with
a null numerator over a usable denominator it raises as well.) -/
theorem returns_length_formula (prices : List Bar)
    (hkeys : ∀ b ∈ prices, b.close ≠ .missing)
    (hnum : hasBadPair (closesOf prices) = false) :
    (∃ rs, compute_daily_returns prices = .ok rs ∧
      rs.length + badDenCount (closesOf prices) = prices.length - 1) ∧
    (prices.length ≤ 1 → compute_daily_returns prices = .ok []) := by
  constructor
  · obtain ⟨rs, hok, hlen⟩ := pairReturns_ok_of_noBadPair _ hnum
    refine ⟨rs, ?_, ?_⟩
    · rw [compute_daily_returns, extractCloses_ok prices hkeys]
      exact hok
    · have hmap : (closesOf prices).length = prices.length :=
        List.length_map _ _
      omega
  · intro hshort
    cases prices with
    | nil => rfl
    | cons b t =>
      cases t with
      | nil =>
        rw [compute_daily_returns, extractCloses_ok _ hkeys]
        rfl
      | cons c r => simp at hshort

/-! ### C6: Composite Scorer caps -/

/-- C6 (amended): every contribution is bounded above by its cap and
an undefined input contributes exactly 0; the gap and volume
contributions always lie in their [0, cap] interval, while the range
(resp. volatility) contribution is nonnegative only when its defined
input is nonnegative.  The total never exceeds 150, and it is
nonnegative whenever the range and volatility contributions are (in
particular whenever those inputs are undefined or nonnegative); a
defined negative day range makes the total negative, see the
counterexample. -/
theorem score_caps_amended (g r vr v : Option ℚ) :
    (0 ≤ gap_contrib g ∧ gap_contrib g ≤ 50) ∧
    (0 ≤ volume_contrib vr ∧ volume_contrib vr ≤ 40) ∧
    range_contrib r ≤ 30 ∧
    vol_contrib v ≤ 30 ∧
    (gap_contrib none = 0 ∧ range_contrib none = 0 ∧
      volume_contrib none = 0 ∧ vol_contrib none = 0) ∧
    (∀ x, r = some x → 0 ≤ x → 0 ≤ range_contrib r) ∧
    (∀ x, v = some x → 0 ≤ x → 0 ≤ vol_contrib v) ∧
    in_play_score g r vr v ≤ 150 ∧
    (0 ≤ range_contrib r → 0 ≤ vol_contrib v →
      0 ≤ in_play_score g r vr v) := by
  have hgap : 0 ≤ gap_contrib g ∧ gap_contrib g ≤ 50 := by
    cases g with
    | none => norm_num [gap_contrib]
    | some x =>
      refine ⟨le_min (by positivity) (by norm_num), min_le_right _ _⟩
  have hvr : 0 ≤ volume_contrib vr ∧ volume_contrib vr ≤ 40 := by
    cases vr with
    | none => norm_num [volume_contrib]
    | some x =>
      refine ⟨le_min ?_ (by norm_num), min_le_right _ _⟩
      exact mul_nonneg (le_max_right _ _) (by norm_num)
  have hr30 : range_contrib r ≤ 30 := by
    cases r with
    | none => norm_num [range_contrib]
    | some x => exact min_le_right _ _
  have hv30 : vol_contrib v ≤ 30 := by
    cases v with
    | none => norm_num [vol_contrib]
    | some x => exact min_le_right _ _
  refine ⟨hgap, hvr, hr30, hv30, ⟨rfl, rfl, rfl, rfl⟩, ?_, ?_, ?_, ?_⟩
  · rintro x rfl hx
    exact le_min (mul_nonneg hx (by norm_num)) (by norm_num)
  · rintro x rfl hx
    exact le_min (mul_nonneg hx (by norm_num)) (by norm_num)
  · have h₁ := add_le_add hgap.2 hr30
    have h₂ := add_le_add h₁ hvr.2
    have h₃ := add_le_add h₂ hv30
    rw [in_play_score]
    linarith
  · intro hr0 hv0
    rw [in_play_score]
    exact add_nonneg (add_nonneg (add_nonneg hgap.1 hr0) hvr.1) hv0

/-- C6 counterexample: a defined negative day range (producible by the
mixer when the snapshot high is below the snapshot low) gives a range
contribution of -100, far outside [0, 30], and drives the total score
to -100, outside [0, 150]. -/
theorem negative_range_breaks_caps :
    day_range_pct_of (some 1) (some 1) (some 2) = some (-1) ∧
    range_contrib (some (-1)) = -100 ∧
    ¬ (0 ≤ range_contrib (some (-1))) ∧
    in_play_score none (some (-1)) none none = -100 ∧
    ¬ (0 ≤ in_play_score none (some (-1)) none none) := by
  refine ⟨?_, ?_, ?_, ?_, ?_⟩ <;>
    norm_num [day_range_pct_of, truthy, range_contrib, in_play_score,
      gap_contrib, volume_contrib, vol_contrib, min_def]

/-- C6 witness: the bounds at concrete scorer inputs. -/
theorem score_caps_witness :
    (0 ≤ gap_contrib (some 1) ∧ gap_contrib (some 1) ≤ 50) ∧
    0 ≤ range_contrib (some 1) ∧
    0 ≤ in_play_score none none none none :=
  ⟨(score_caps_amended (some 1) none none none).1,
    (score_caps_amended none (some 1) none none).2.2.2.2.2.1 1 rfl (by decide),
    (score_caps_amended none none none none).2.2.2.2.2.2.2.2
      (by decide) (by decide)⟩

/-! ### C7: the volatility window -/

theorem lastN_length (n : ℕ) (l : List ℚ) :
    (lastN n l).length = min n l.length := by
  simp only [lastN, List.length_drop]
  omega

/-- C7: the squared volatility is defined exactly when
`min(m, 10) ≥ 2`, and it is then the Bessel-corrected sample statistic
of exactly the `min(m, 10)` most recent returns (a suffix of that
length). -/
theorem vol_window_spec (rs : List ℚ) :
    ((vol_10d_sq_of rs).isSome = true ↔ 2 ≤ min rs.length 10) ∧
    (∀ v, vol_10d_sq_of rs = some v →
      ∃ pre w, rs = pre ++ w ∧ w.length = min rs.length 10 ∧
        v = sampleVariance w) := by
  have hw : (lastN 10 rs).length = min 10 rs.length := lastN_length 10 rs
  constructor
  · unfold vol_10d_sq_of
    by_cases h2 : 2 ≤ rs.length
    · by_cases h2w : 2 ≤ (lastN 10 rs).length
      · simp only [h2, h2w, if_true, Option.isSome_some]
        constructor
        · intro _
          omega
        · intro _
          trivial
      · rw [hw] at h2w
        omega
    · simp only [h2, if_false]
      constructor
      · intro hfalse
        simp at hfalse
      · intro hmin
        omega
  · intro v hv
    unfold vol_10d_sq_of at hv
    by_cases h2 : 2 ≤ rs.length
    swap
    · simp [h2] at hv
    by_cases h2w : 2 ≤ (lastN 10 rs).length
    swap
    · rw [hw] at h2w
      omega
    simp only [h2, h2w, if_true, Option.some_inj] at hv
    refine ⟨rs.take (rs.length - 10), lastN 10 rs, ?_, ?_, hv.symm⟩
    · exact (List.take_append_drop _ rs).symm
    · rw [hw]
      omega

/-- C7 witness: two returns are enough for a defined volatility, and
for `[0, 2]` the window is a suffix of length `min 2 10`. -/
theorem vol_window_witness :
    (vol_10d_sq_of [0, 1]).isSome = true ∧
    ∃ pre w, ([0, 2] : List ℚ) = pre ++ w ∧
      w.length = min ([0, 2] : List ℚ).length 10 ∧
      sampleVariance (lastN 10 [0, 2]) = sampleVariance w :=
  ⟨(vol_window_spec [0, 1]).1.mpr (by decide),
    (vol_window_spec [0, 2]).2 (sampleVariance (lastN 10 [0, 2])) rfl⟩

/-! ### C8: aggregator omission and missing fundamentals -/

/-- C8: a symbol with fewer than two bars yields the empty result with
no error, whatever its fundamentals; the aggregator then contributes
nothing for it; and a symbol with no fundamentals entry is processed
with the empty record (hence the empty snapshot), not an error. -/
theorem aggregator_omission (sym : String) (rows : List Bar)
    (fund : Fundamentals) (rest : List (String × List Bar))
    (funds : List (String × Fundamentals)) :
    (rows.length < 2 → compute_indicators_for_symbol sym rows fund = .ok none) ∧
    (rows.length < 2 →
      signalsFor ((sym, rows) :: rest) funds = signalsFor rest funds) ∧
    (funds.lookup sym = none →
      signalsFor ((sym, rows) :: rest) funds =
        match compute_indicators_for_symbol sym rows emptyFundamentals with
        | .error e => .error e
        | .ok ind =>
          match signalsFor rest funds with
          | .error e => .error e
          | .ok tailSig =>
            match ind with
            | none => .ok tailSig
            | some sig => .ok ((sym, sig) :: tailSig)) := by
  refine ⟨?_, ?_, ?_⟩
  · intro hlt
    simp [compute_indicators_for_symbol, hlt]
  · intro hlt
    have h1 : compute_indicators_for_symbol sym rows
        ((funds.lookup sym).getD emptyFundamentals) = .ok none := by
      simp [compute_indicators_for_symbol, hlt]
    simp only [signalsFor, h1]
    cases signalsFor rest funds <;> rfl
  · intro hnone
    simp only [signalsFor, hnone]
    rfl

/-- C8 witness: the three parts at concrete inputs. -/
theorem aggregator_omission_witness :
    compute_indicators_for_symbol "A" [] emptyFundamentals = .ok none ∧
    signalsFor [("A", [])] [] = signalsFor [] [] ∧
    signalsFor [("A", [])] [] =
      match compute_indicators_for_symbol "A" [] emptyFundamentals with
      | .error e => .error e
      | .ok ind =>
        match signalsFor ([] : List (String × List Bar)) [] with
        | .error e => .error e
        | .ok tailSig =>
          match ind with
          | none => .ok tailSig
          | some sig => .ok (("A", sig) :: tailSig) :=
  ⟨(aggregator_omission "A" [] emptyFundamentals [] []).1 (by decide),
    (aggregator_omission "A" [] emptyFundamentals [] []).2.1 (by decide),
    (aggregator_omission "A" [] emptyFundamentals [] []).2.2 rfl⟩

/-! ### C9: insensitivity to the input order of bars -/

theorem sortBarsByDate_sorted (l : List Bar) :
    List.Sorted dateLE (sortBarsByDate l) :=
  List.sorted_insertionSort dateLE l

theorem sortBarsByDate_perm (l : List Bar) :
    (sortBarsByDate l).Perm l :=
  List.perm_insertionSort dateLE l

theorem pairwise_and_of_pairwise {R S : Bar → Bar → Prop} :
    ∀ l : List Bar, l.Pairwise R → l.Pairwise S →
      l.Pairwise fun a b => R a b ∧ S a b := by
  intro l hR hS
  induction l with
  | nil => exact List.Pairwise.nil
  | cons a t ih =>
    rcases List.pairwise_cons.mp hR with ⟨hRa, hRt⟩
    rcases List.pairwise_cons.mp hS with ⟨hSa, hSt⟩
    exact List.Pairwise.cons (fun b hb => ⟨hRa b hb, hSa b hb⟩) (ih hRt hSt)

theorem sorted_lt_of_sorted_le_nodup (l : List Bar)
    (hs : List.Sorted dateLE l) (hn : (l.map Bar.date).Nodup) :
    List.Sorted dateLT l := by
  have hnd : l.Pairwise fun a b => a.date ≠ b.date :=
    List.pairwise_map.mp hn
  have hboth := pairwise_and_of_pairwise l hs hnd
  exact hboth.imp fun hab => Nat.lt_of_le_of_ne hab.1 hab.2

theorem sortBarsByDate_eq_of_perm (l₁ l₂ : List Bar)
    (hp : l₁.Perm l₂) (hn : (l₁.map Bar.date).Nodup) :
    sortBarsByDate l₁ = sortBarsByDate l₂ := by
  have hp₁ := sortBarsByDate_perm l₁
  have hp₂ := sortBarsByDate_perm l₂
  have hps : (sortBarsByDate l₁).Perm (sortBarsByDate l₂) :=
    hp₁.trans (hp.trans hp₂.symm)
  have hn₁ : ((sortBarsByDate l₁).map Bar.date).Nodup :=
    ((hp₁.map Bar.date).nodup_iff).mpr hn
  have hn₂ : ((sortBarsByDate l₂).map Bar.date).Nodup :=
    ((hp₂.map Bar.date).nodup_iff).mpr (((hp.map Bar.date).nodup_iff).mp hn)
  exact List.eq_of_perm_of_sorted hps
    (sorted_lt_of_sorted_le_nodup _ (sortBarsByDate_sorted l₁) hn₁)
    (sorted_lt_of_sorted_le_nodup _ (sortBarsByDate_sorted l₂) hn₂)

/-- C9: with at least two bars and pairwise distinct dates, the engine
gives the same result on any permutation of the bar list: the
defensive sort of line 67 makes the output insensitive to input
order. -/
theorem order_insensitive (sym : String) (l₁ l₂ : List Bar)
    (fund : Fundamentals) (hp : l₁.Perm l₂)
    (hn : (l₁.map Bar.date).Nodup) (_hlen : 2 ≤ l₁.length) :
    compute_indicators_for_symbol sym l₁ fund =
      compute_indicators_for_symbol sym l₂ fund := by
  have hlen₂ : l₂.length = l₁.length := hp.length_eq.symm
  have hsort := sortBarsByDate_eq_of_perm l₁ l₂ hp hn
  unfold compute_indicators_for_symbol
  rw [hsort, hlen₂]

/-- C9 witness: swapping two dated bars leaves the signal unchanged. -/
theorem order_insensitive_witness :
    compute_indicators_for_symbol "A" [⟨2, .num 5⟩, ⟨1, .num 4⟩]
        emptyFundamentals =
      compute_indicators_for_symbol "A" [⟨1, .num 4⟩, ⟨2, .num 5⟩]
        emptyFundamentals :=
  order_insensitive "A" [⟨2, .num 5⟩, ⟨1, .num 4⟩] [⟨1, .num 4⟩, ⟨2, .num 5⟩]
    emptyFundamentals
    (List.Perm.swap (⟨1, .num 4⟩ : Bar) (⟨2, .num 5⟩ : Bar) [])
    (by decide) (by decide)

/-! ### C10: the engine does not mutate its arguments -/

/-- C10: threading the caller-owned objects through every access the
source makes to them, the call returns them unchanged — the sort of
line 67 works on a fresh copy (`sorted` allocates) and the
fundamentals record is only read — and the result agrees with the
direct model of the function. -/
theorem frame_preservation (sym : String) (s : CallerState) :
    (compute_indicators_st sym s).2 = s ∧
    (compute_indicators_st sym s).1 =
      compute_indicators_for_symbol sym s.daily_prices s.fundamentals := by
  unfold compute_indicators_st compute_indicators_for_symbol readLen
    sortedCopy readSnapshot
  by_cases h : s.daily_prices.length < 2 <;> simp [h]

/-- C5 counterexample: a single bar lacking the close key raises
`KeyError`, although the claim promises no error and an empty result
for every input of length 1. -/
theorem returns_raise_on_missing_key_short :
    compute_daily_returns [⟨1, .missing⟩] = .error .keyError := rfl

/-- C5 witness: two numeric closes give one return and the length
formula holds. -/
theorem returns_length_formula_witness :
    ∃ rs, compute_daily_returns [⟨1, .num 4⟩, ⟨2, .num 5⟩] = .ok rs ∧
      rs.length + badDenCount (closesOf [⟨1, .num 4⟩, ⟨2, .num 5⟩]) =
        ([(⟨1, .num 4⟩ : Bar), ⟨2, .num 5⟩]).length - 1 :=
  (returns_length_formula [⟨1, .num 4⟩, ⟨2, .num 5⟩] (by decide) (by decide)).1
